import Mathlib

/-!
Verification of the n8n Workflow Popularity Tracker core pipeline
(engagement scoring, upsert reconciliation, collection logging,
adapter deduplication) against its natural-language specification.

The Python source stores workflow records as MongoDB documents
(string-keyed dictionaries).  We embed documents as association lists
from field names to a small value type; floating point arithmetic is
idealised as exact rational arithmetic; clock reads
(`datetime.now(timezone.utc)`) become explicit `Nat` parameters, one per
textual call site; exceptions become `Except` values which the
`try/except` wrappers catch.
-/

/-- A MongoDB field value as used by this code base: strings, numbers
(ints and floats collapsed to `ℚ`), timestamps, and lists of strings
(the `related_queries` field). -/
inductive Value where
  | str : String → Value
  | num : ℚ → Value
  | time : Nat → Value
  | strList : List String → Value
deriving DecidableEq, Repr

/-- A document: an association list from field names to values, with
first occurrence winning on lookup (Python dicts have unique keys, so
well-formed documents never carry a duplicate key). -/
abbrev Doc := List (String × Value)

/-- Field lookup, `d.get(k)` / `d[k]` returning `none` when absent. -/
def getField (d : Doc) (k : String) : Option Value :=
  match d with
  | [] => none
  | (k', v) :: rest => if k' = k then some v else getField rest k

/-- Field assignment `d[k] = v`: replaces the first binding of `k`
in place, or appends a new binding (Python dicts preserve insertion
order and update in place). -/
def setField (d : Doc) (k : String) (v : Value) : Doc :=
  match d with
  | [] => [(k, v)]
  | (k', v') :: rest => if k' = k then (k, v) :: rest else (k', v') :: setField rest k v

/-- `d.get(k, dflt)` returning the raw stored value. -/
def getVal (d : Doc) (k : String) (dflt : Value) : Value :=
  (getField d k).getD dflt

/-- `d.get(k, dflt)` read as a number.  A present non-numeric value is
mapped to the default; in the Python source the metric fields read this
way are always numeric (the collectors construct them from `int(...)`
or arithmetic), so that case is never exercised. -/
def getQ (d : Doc) (k : String) (dflt : ℚ) : ℚ :=
  match getField d k with
  | some (Value.num q) => q
  | _ => dflt

/-- `d.get(k, dflt)` read as a string (used for the `platform` field).
A present non-string value is mapped to the default; the subsequent
equality tests against platform names then fail, exactly as the Python
comparison of a non-string against a string literal does. -/
def getStr (d : Doc) (k : String) (dflt : String) : String :=
  match getField d k with
  | some (Value.str v) => v
  | _ => dflt

/-- Checks that a field is either absent or bound to a number — the
region where the total `getQ` model agrees with Python, which would
raise on arithmetic over a present non-numeric metric. -/
def numOrAbsent (d : Doc) (k : String) : Bool :=
  match getField d k with
  | some (Value.num _) => true
  | some _ => false
  | none => true

/-- The `workflows` MongoDB collection: documents tagged with their
`_id` (a fresh `Nat`), kept in insertion order, plus the next fresh id. -/
structure Store where
  docs : List (Nat × Doc)
  nextId : Nat
deriving DecidableEq, Repr

def emptyStore : Store := ⟨[], 0⟩

/-- Whether a document matches a `find_one` filter: every key/value
pair of the filter equals the document's field (exact equality, as
Mongo performs on these scalar filters). -/
def matchesFilter (d : Doc) (filter : List (String × Value)) : Bool :=
  filter.all (fun kv => getField d kv.1 == some kv.2)

/-- `collection.find_one(filter)`: first matching document. -/
def findOne (filter : List (String × Value)) (s : Store) : Option (Nat × Doc) :=
  s.docs.find? (fun p => matchesFilter p.2 filter)

/-- `collection.insert_one(doc)`: appends with a fresh `_id`. -/
def insertOne (d : Doc) (s : Store) : Store :=
  { docs := s.docs ++ [(s.nextId, d)], nextId := s.nextId + 1 }

/-- Applies a `$set` document: each listed field is written in order. -/
def applySet (d : Doc) (fields : List (String × Value)) : Doc :=
  fields.foldl (fun acc kv => setField acc kv.1 kv.2) d

/-- `collection.update_one({'_id': id}, {'$set': fields})`. -/
def updateOne (s : Store) (id : Nat) (fields : List (String × Value)) : Store :=
  { s with docs := s.docs.map (fun p => if p.1 = id then (p.1, applySet p.2 fields) else p) }

/-- Embedding of `calculate_engagement_score` from `app.py` (lines
54–80).  Note the `YouTube` branch returns the weighted sum only when
`views > 0` and otherwise falls through to the final `return 0.0`, and
the trends branch matches the platform string `'Google Trends'`. -/
def calculate_engagement_score_app (workflow : Doc) : ℚ :=
  let platform := getStr workflow "platform" ""
  if platform = "YouTube" then
    let views := getQ workflow "views" 0
    let likes := getQ workflow "likes" 0
    let comments := getQ workflow "comments" 0
    if views > 0 then
      views * 0.0001 + likes * 0.4 + comments * 0.2
    else 0.0
  else if platform = "Forum" then
    let views := getQ workflow "views" 0
    let replies := getQ workflow "replies" 0
    let likes := getQ workflow "likes" 0
    let contributors := getQ workflow "contributors" 0
    replies * 40 + likes * 30 + contributors * 20 + views * 0.01
  else if platform = "Google Trends" then
    let search_volume := getQ workflow "search_volume" 0
    let trend_change := getQ workflow "trend_change" 0
    search_volume * 0.7 + max 0 trend_change * 300
  else 0.0

/-- Embedding of `calculate_engagement_score` from `scheduler.py`
(lines 42–65).  Identical to the `app.py` version except that the
trends branch matches the platform string `'Google'`. -/
def calculate_engagement_score_sched (workflow : Doc) : ℚ :=
  let platform := getStr workflow "platform" ""
  if platform = "YouTube" then
    let views := getQ workflow "views" 0
    let likes := getQ workflow "likes" 0
    let comments := getQ workflow "comments" 0
    if views > 0 then
      views * 0.0001 + likes * 0.4 + comments * 0.2
    else 0.0
  else if platform = "Forum" then
    let views := getQ workflow "views" 0
    let replies := getQ workflow "replies" 0
    let likes := getQ workflow "likes" 0
    let contributors := getQ workflow "contributors" 0
    replies * 40 + likes * 30 + contributors * 20 + views * 0.01
  else if platform = "Google" then
    let search_volume := getQ workflow "search_volume" 0
    let trend_change := getQ workflow "trend_change" 0
    search_volume * 0.7 + max 0 trend_change * 300
  else 0.0

/-- Body of `save_workflow` from `app.py` (lines 82–111), without the
enclosing `try/except`.  The `find_one` argument reads
`workflow['workflow']`, `workflow['platform']` and
`workflow['country']`; a missing key raises `KeyError`, modelled as
`Except.error`.  The clock read for `last_updated` is the parameter
`now`. -/
def save_workflow_app_body (workflow : Doc) (now : Nat) (s : Store) : Except String Store :=
  let wf1 := setField workflow "engagement_score" (Value.num (calculate_engagement_score_app workflow))
  let wf2 := setField wf1 "last_updated" (Value.time now)
  match getField wf2 "workflow", getField wf2 "platform", getField wf2 "country" with
  | some nameV, some platV, some ctryV =>
    match findOne [("workflow", nameV), ("platform", platV), ("country", ctryV)] s with
    | some (id, existing) =>
      let wf3 := setField wf2 "created_at" (getVal existing "created_at" (Value.time now))
      Except.ok (updateOne s id wf3)
    | none =>
      let wf3 := setField wf2 "created_at" (Value.time now)
      Except.ok (insertOne wf3 s)
  | _, _, _ => Except.error "KeyError"

/-- `save_workflow` from `app.py`: the body wrapped in the
`try/except Exception` that logs and swallows any failure, leaving the
store untouched. -/
def save_workflow_app (workflow : Doc) (now : Nat) (s : Store) : Store :=
  match save_workflow_app_body workflow now s with
  | Except.ok s' => s'
  | Except.error _ => s

/-- The `$set` document of the scheduler's update branch (lines
85–98): the fixed list of metric fields read from the (already
score- and timestamp-carrying) workflow dict with `get` defaults, the
engagement score just computed, and the `last_updated` clock read.
`created_at` is absent from this list. -/
def schedSetFields (wf2 : Doc) (score : ℚ) (now1 : Nat) : List (String × Value) :=
  [("views", getVal wf2 "views" (Value.num 0)),
   ("likes", getVal wf2 "likes" (Value.num 0)),
   ("comments", getVal wf2 "comments" (Value.num 0)),
   ("replies", getVal wf2 "replies" (Value.num 0)),
   ("contributors", getVal wf2 "contributors" (Value.num 0)),
   ("search_volume", getVal wf2 "search_volume" (Value.num 0)),
   ("trend_change", getVal wf2 "trend_change" (Value.num 0)),
   ("like_to_view_ratio", getVal wf2 "like_to_view_ratio" (Value.num 0)),
   ("comment_to_view_ratio", getVal wf2 "comment_to_view_ratio" (Value.num 0)),
   ("engagement_score", Value.num score),
   ("source_url", getVal wf2 "source_url" (Value.str "")),
   ("last_updated", Value.time now1)]

/-- Body of `save_workflow` from `scheduler.py` (lines 67–107), without
the enclosing `try/except`.  The lookup key is `workflow_name`; the
update branch `$set`s the fixed list of metric fields with
`workflow.get(...)` defaults; the insert branch performs a second clock
read `datetime.now(timezone.utc)` for `created_at`, modelled as the
separate parameter `now2` (`now1` is the read stored in
`last_updated`). -/
def save_workflow_sched_body (workflow : Doc) (now1 now2 : Nat) (s : Store) : Except String Store :=
  let score := calculate_engagement_score_sched workflow
  let wf1 := setField workflow "engagement_score" (Value.num score)
  let wf2 := setField wf1 "last_updated" (Value.time now1)
  match getField wf2 "workflow_name", getField wf2 "platform", getField wf2 "country" with
  | some nameV, some platV, some ctryV =>
    match findOne [("workflow_name", nameV), ("platform", platV), ("country", ctryV)] s with
    | some (id, _) =>
      Except.ok (updateOne s id (schedSetFields wf2 score now1))
    | none =>
      let wf3 := setField wf2 "created_at" (Value.time now2)
      Except.ok (insertOne wf3 s)
  | _, _, _ => Except.error "KeyError"

/-- `save_workflow` from `scheduler.py`: body wrapped in the
catch-and-swallow `try/except Exception`. -/
def save_workflow_sched (workflow : Doc) (now1 now2 : Nat) (s : Store) : Store :=
  match save_workflow_sched_body workflow now1 now2 s with
  | Except.ok s' => s'
  | Except.error _ => s

/-! ### The Google Trends collector (`collectors/google_collector.py`) -/

/-- The `country_codes` dictionary of `GoogleTrendsCollector.__init__`. -/
def country_codes : List (String × String) :=
  [("US", "US"), ("GB", "GB"), ("DE", "DE"), ("FR", "FR"), ("CA", "CA"),
   ("AU", "AU"), ("IN", "IN"), ("BR", "BR"), ("JP", "JP"), ("Global", "")]

/-- `dict.get(k, dflt)` over a string-to-string dictionary. -/
def lookupDefault (m : List (String × String)) (k dflt : String) : String :=
  match m with
  | [] => dflt
  | (k', v) :: rest => if k' = k then v else lookupDefault rest k dflt

/-- `keyword.replace(' ', '%20')` from the `source_url` construction of
`create_workflow_from_trend` (single-character pattern, so a direct
character map). -/
def replaceSpaces (s : String) : String :=
  String.mk (s.data.foldr (fun c acc => if c = ' ' then '%' :: '2' :: '0' :: acc else c :: acc) [])

/-- Embedding of `GoogleTrendsCollector.create_workflow_from_trend`
(lines 152–179).  Inputs on which the Python body raises (missing
`keyword`/`country`/`trend_score`/`related_queries`/`timestamp` keys, or
non-string/non-numeric values where string/numeric operations are
applied) are sent to `none`, matching the `except` branch that returns
`None`.  Every record this function produces carries the platform
string `'Google Trends'`. -/
def create_workflow_from_trend (trends_data : Doc) : Option Doc :=
  match getField trends_data "keyword", getField trends_data "country",
      getField trends_data "trend_score", getField trends_data "related_queries",
      getField trends_data "timestamp" with
  | some (Value.str keyword), some (Value.str country), some (Value.num trend_score),
      some related_queries, some timestamp =>
    let trend_change := getVal trends_data "trend_change" (Value.num 0)
    let search_volume := getVal trends_data "search_volume" (Value.num (trend_score * 1000))
    some [
      ("workflow_name", Value.str (keyword ++ " automation workflow")),
      ("platform", Value.str "Google Trends"),
      ("country", Value.str country),
      ("trend_score", Value.num trend_score),
      ("search_volume", search_volume),
      ("trend_change", trend_change),
      ("related_queries", related_queries),
      ("popularity_index", Value.num trend_score),
      ("source_url", Value.str ("https://trends.google.com/trends/explore?q="
        ++ replaceSpaces keyword ++ "&geo=" ++ lookupDefault country_codes country "US")),
      ("timestamp", timestamp)]
  | _, _, _, _, _ => none

/-- A concrete trends observation, shaped like the dictionaries built by
`GoogleTrendsCollector.get_trends_data`. -/
def trendsSampleData : Doc :=
  [("keyword", Value.str "n8n automation"), ("country", Value.str "US"),
   ("trend_score", Value.num 50), ("trend_change", Value.num 2),
   ("search_volume", Value.num 1000),
   ("related_queries", Value.strList ["n8n automation tutorial"]),
   ("timestamp", Value.str "2025-01-01T00:00:00")]

/-- The workflow record the collector produces from `trendsSampleData`. -/
def googleRecordSample : Doc :=
  [("workflow_name", Value.str "n8n automation automation workflow"),
   ("platform", Value.str "Google Trends"),
   ("country", Value.str "US"),
   ("trend_score", Value.num 50),
   ("search_volume", Value.num 1000),
   ("trend_change", Value.num 2),
   ("related_queries", Value.strList ["n8n automation tutorial"]),
   ("popularity_index", Value.num 50),
   ("source_url", Value.str "https://trends.google.com/trends/explore?q=n8n%20automation&geo=US"),
   ("timestamp", Value.str "2025-01-01T00:00:00")]

/-! ### Adapter deduplication (`youtube_collector.py`, `forum_collector.py`) -/

/-- Lookup in the `unique_workflows` dictionary (URL to item). -/
def assocFind (m : List (String × Doc)) (url : String) : Option Doc :=
  match m with
  | [] => none
  | (u, wf) :: rest => if u = url then some wf else assocFind rest url

/-- Assignment `unique_workflows[url] = wf`: replaces an existing
binding in place, or appends (dict insertion order). -/
def assocSet (m : List (String × Doc)) (url : String) (wf : Doc) : List (String × Doc) :=
  match m with
  | [] => [(url, wf)]
  | (u, w) :: rest => if u = url then (url, wf) :: rest else (u, w) :: assocSet rest url wf

/-- `wf['views']` as read by the YouTube dedup comparison. -/
def wfViews (wf : Doc) : ℚ := getQ wf "views" 0

/-- Checks the fields Python reads during YouTube dedup — every item
`get_video_details` constructs satisfies this; an item missing them
would make the Python loop raise instead. -/
def ytItemOk (wf : Doc) : Bool :=
  (match getField wf "source_url" with
   | some (Value.str _) => true
   | _ => false) &&
  (match getField wf "views" with
   | some (Value.num _) => true
   | _ => false)

/-- One iteration of the URL-dedup loop in
`YouTubeCollector.collect_workflows` (lines 130–134):
`if url not in unique_workflows or wf['views'] > unique_workflows[url]['views']: unique_workflows[url] = wf`.
Items without a string `source_url` are left out of the table (Python
would raise there; the theorems only quantify over `ytItemOk` items). -/
def dedupStepYoutube (m : List (String × Doc)) (wf : Doc) : List (String × Doc) :=
  match getField wf "source_url" with
  | some (Value.str url) =>
    match assocFind m url with
    | none => assocSet m url wf
    | some prev => if wfViews wf > wfViews prev then assocSet m url wf else m
  | _ => m

/-- The whole YouTube dedup pass over the collected items, producing
the `unique_workflows` table (its `.values()` are the returned list). -/
def dedupYoutube (items : List Doc) : List (String × Doc) :=
  items.foldl dedupStepYoutube []

/-- One iteration of the URL-dedup loop in
`ForumCollector.collect_workflows` (lines 148–152):
`if url and url not in unique_workflows: unique_workflows[url] = wf` —
first binding wins, empty URLs are dropped, views are never compared. -/
def dedupStepForum (m : List (String × Doc)) (wf : Doc) : List (String × Doc) :=
  match getField wf "source_url" with
  | some (Value.str url) =>
    if url = "" then m
    else
      match assocFind m url with
      | none => assocSet m url wf
      | some _ => m
  | _ => m

/-- The whole Forum dedup pass. -/
def dedupForum (items : List Doc) : List (String × Doc) :=
  items.foldl dedupStepForum []

/-- Two forum items sharing a URL with different view counts: the
lower-view item first. -/
def forumDupLow : Doc :=
  [("workflow_name", Value.str "Slack to Notion Task Sync Automation"),
   ("platform", Value.str "Forum"), ("country", Value.str "Global"),
   ("views", Value.num 1), ("replies", Value.num 3), ("likes", Value.num 4),
   ("contributors", Value.num 2),
   ("source_url", Value.str "https://community.n8n.io/t/slack-notion-task-sync/15201")]

def forumDupHigh : Doc :=
  [("workflow_name", Value.str "Slack to Notion Task Sync Automation"),
   ("platform", Value.str "Forum"), ("country", Value.str "Global"),
   ("views", Value.num 2), ("replies", Value.num 3), ("likes", Value.num 4),
   ("contributors", Value.num 2),
   ("source_url", Value.str "https://community.n8n.io/t/slack-notion-task-sync/15201")]

/-! ### Collection run logging (`trigger_collection`, `collect_youtube_data`) -/

/-- One `CollectionRunLog` document as written by `log_collection`
(platform, `workflows_collected`, status; the error message and
timestamp are irrelevant to the claims). -/
structure RunLogEntry where
  platform : String
  workflows_collected : Nat
  status : String
deriving DecidableEq, Repr

/-- The value of the Python local `workflows` after the country loop of
the YouTube branch of `trigger_collection` in `app.py` (lines 300–308):
each iteration rebinds `workflows` to that country's list, so after the
loop only the last country's list remains; with no countries the name
is unbound (`none`), and reading it raises `NameError`. -/
def appYoutubeLastBatch (collect : String → List Doc) (countries : List String) : Option (List Doc) :=
  countries.foldl (fun _ c => some (collect c)) none

/-- The single run-log entry the YouTube branch of `trigger_collection`
writes: `log_collection('YouTube', len(workflows), 'success')` on the
success path, and an error entry with count 0 when the branch raised
(as it does when `workflows` is unbound). -/
def appYoutubeRunLog (collect : String → List Doc) (countries : List String) : RunLogEntry :=
  match appYoutubeLastBatch collect countries with
  | some ws => ⟨"YouTube", ws.length, "success"⟩
  | none => ⟨"YouTube", 0, "error"⟩

/-- The single run-log entry `collect_youtube_data` in `scheduler.py`
(lines 134–146) writes on success: `total_count` accumulates
`len(workflows)` over the fixed countries `['US', 'IN']` and is logged
once. -/
def schedYoutubeRunLog (collect : String → List Doc) : RunLogEntry :=
  ⟨"YouTube", ["US", "IN"].foldl (fun acc c => acc + (collect c).length) 0, "success"⟩

/-- An adapter stub returning two items for US and one for IN. -/
def collectTwoOne : String → List Doc := fun c =>
  if c = "US" then
    [[("workflow_name", Value.str "a")], [("workflow_name", Value.str "b")]]
  else if c = "IN" then
    [[("workflow_name", Value.str "c")]]
  else []

/-! ### Sequences of upserts -/

/-- The batch loop `for wf in workflows: save_workflow(wf)` of
`trigger_collection` in `app.py`, with one clock read per record. -/
def saveAllApp (batch : List (Doc × Nat)) (s : Store) : Store :=
  batch.foldl (fun st p => save_workflow_app p.1 p.2 st) s

/-- One upsert invocation: either implementation, with its clock
read(s). -/
inductive SaveOp where
  | app (wf : Doc) (now : Nat)
  | sched (wf : Doc) (now1 now2 : Nat)

def applyOp (s : Store) (op : SaveOp) : Store :=
  match op with
  | SaveOp.app wf now => save_workflow_app wf now s
  | SaveOp.sched wf now1 now2 => save_workflow_sched wf now1 now2 s

def applyOps (ops : List SaveOp) (s : Store) : Store :=
  ops.foldl applyOp s

/-- The keys of a document, in order. -/
def docKeys (d : Doc) : List String := d.map Prod.fst

/-- A Python dictionary never has duplicate keys. -/
def docKeysNodup (d : Doc) : Prop := (docKeys d).Nodup

/-- The dictionary underlying a `SaveOp` is a Python dict. -/
def opOk : SaveOp → Prop
  | SaveOp.app wf _ => docKeysNodup wf
  | SaveOp.sched wf _ _ => docKeysNodup wf

/-- Store sanity: `_id`s are distinct and below the fresh counter —
true of every store MongoDB (or `insertOne`) builds. -/
def StoreWF (s : Store) : Prop :=
  (s.docs.map Prod.fst).Nodup ∧ ∀ p ∈ s.docs, p.1 < s.nextId

/-- The first stored document, for stating facts about a store known to
hold exactly one record. -/
def firstDocOf (s : Store) : Doc :=
  match s.docs with
  | [] => []
  | (_, d) :: _ => d

/-- A forum record as built by `ForumCollector.extract_workflow_info`. -/
def forumRecordSample : Doc :=
  [("workflow_name", Value.str "WhatsApp Business API Integration Workflow"),
   ("platform", Value.str "Forum"), ("country", Value.str "Global"),
   ("views", Value.num 2845), ("replies", Value.num 23), ("likes", Value.num 67),
   ("contributors", Value.num 12),
   ("source_url", Value.str "https://community.n8n.io/t/whatsapp-business-api-integration/15432")]

/-- A stored record with a known `created_at`, and a store holding it. -/
def c2StoredDoc : Doc :=
  [("workflow_name", Value.str "W"), ("platform", Value.str "Forum"),
   ("country", Value.str "Global"), ("created_at", Value.time 3)]

def c2Store : Store := ⟨[(0, c2StoredDoc)], 1⟩

/-- A fresh observation of the same identity key with new metrics. -/
def c2OpDoc : Doc :=
  [("workflow_name", Value.str "W"), ("platform", Value.str "Forum"),
   ("country", Value.str "Global"), ("views", Value.num 9)]

def c2Op : SaveOp := SaveOp.sched c2OpDoc 7 8

/- Basic lemmas about documents. -/

theorem getField_setField_same (d : Doc) (k : String) (v : Value) :
    getField (setField d k v) k = some v := by
  induction d with
  | nil => simp [setField, getField]
  | cons p rest ih =>
    by_cases h : p.1 = k
    · simp [setField, getField, h]
    · simp [setField, getField, h, ih]

theorem getField_setField_ne (d : Doc) (k k' : String) (v : Value) (h : k ≠ k') :
    getField (setField d k v) k' = getField d k' := by
  induction d with
  | nil => simp [setField, getField, h]
  | cons p rest ih =>
    by_cases hp : p.1 = k
    · simp [setField, getField, hp, h, Ne.symm h]
    · by_cases hp' : p.1 = k'
      · simp [setField, getField, hp, hp', Ne.symm h]
      · simp [setField, getField, hp, hp', ih]

theorem getQ_setField_ne (d : Doc) (k k' : String) (v : Value) (q : ℚ) (h : k ≠ k') :
    getQ (setField d k v) k' q = getQ d k' q := by
  simp [getQ, getField_setField_ne d k k' v h]

theorem getStr_of_getField {d : Doc} {k : String} {p : String} (dflt : String)
    (h : getField d k = some (Value.str p)) : getStr d k dflt = p := by
  simp [getStr, h]

theorem mem_setField_self (d : Doc) (k : String) (v : Value) :
    (k, v) ∈ setField d k v := by
  induction d with
  | nil => simp [setField]
  | cons p rest ih =>
    by_cases h : p.1 = k
    · simp [setField, h]
    · simp only [setField, if_neg h]
      exact List.mem_cons_of_mem _ ih

theorem docKeys_setField (d : Doc) (k : String) (v : Value) :
    docKeys (setField d k v)
      = if k ∈ docKeys d then docKeys d else docKeys d ++ [k] := by
  induction d with
  | nil => simp [setField, docKeys]
  | cons p rest ih =>
    by_cases h : p.1 = k
    · simp [setField, docKeys, h]
    · simp only [setField, if_neg h, docKeys, List.map_cons] at ih ⊢
      rw [ih]
      by_cases hk : k ∈ List.map Prod.fst rest
      · simp [hk, Ne.symm h]
      · simp [hk, Ne.symm h]

theorem docKeysNodup_setField (d : Doc) (k : String) (v : Value)
    (h : docKeysNodup d) : docKeysNodup (setField d k v) := by
  unfold docKeysNodup at h ⊢
  rw [docKeys_setField]
  by_cases hk : k ∈ docKeys d
  · simpa [hk] using h
  · simp [hk, List.nodup_append, h]

theorem getField_eq_none_of_not_mem_keys (d : Doc) (k : String)
    (h : k ∉ docKeys d) : getField d k = none := by
  induction d with
  | nil => rfl
  | cons p rest ih =>
    simp only [docKeys, List.map_cons, List.mem_cons, not_or] at h
    simp only [getField, ih h.2, if_neg (Ne.symm h.1)]

theorem getField_applySet_not_mem (fields : List (String × Value)) (d : Doc) (k : String)
    (h : k ∉ fields.map Prod.fst) :
    getField (applySet d fields) k = getField d k := by
  induction fields generalizing d with
  | nil => rfl
  | cons kv rest ih =>
    simp only [List.map_cons, List.mem_cons, not_or] at h
    show getField (applySet (setField d kv.1 kv.2) rest) k = getField d k
    rw [ih _ h.2, getField_setField_ne _ _ _ _ (Ne.symm h.1)]

theorem getField_applySet_mem (fields : List (String × Value)) (d : Doc) (k : String) (v : Value)
    (hnd : (fields.map Prod.fst).Nodup) (hmem : (k, v) ∈ fields) :
    getField (applySet d fields) k = some v := by
  induction fields generalizing d with
  | nil => cases hmem
  | cons kv rest ih =>
    simp only [List.map_cons, List.nodup_cons] at hnd
    rcases List.mem_cons.1 hmem with heq | htail
    · subst heq
      show getField (applySet (setField d k v) rest) k = some v
      rw [getField_applySet_not_mem _ _ _ hnd.1, getField_setField_same]
    · exact ih _ hnd.2 htail

theorem mem_keys_nodup_eq (l : List (Nat × Doc)) (h : (l.map Prod.fst).Nodup)
    {i : Nat} {a b : Doc} (ha : (i, a) ∈ l) (hb : (i, b) ∈ l) : a = b := by
  induction l with
  | nil => cases ha
  | cons p rest ih =>
    simp only [List.map_cons, List.nodup_cons] at h
    rcases List.mem_cons.1 ha with rfl | ha'
    · rcases List.mem_cons.1 hb with heq | hb'
      · exact (Prod.mk.injEq _ _ _ _ ▸ heq).2.symm ▸ rfl
      · exact absurd (List.mem_map_of_mem Prod.fst hb') (by simpa using h.1)
    · rcases List.mem_cons.1 hb with rfl | hb'
      · exact absurd (List.mem_map_of_mem Prod.fst ha') (by simpa using h.1)
      · exact ih h.2 ha' hb'

theorem findOne_mem {filter : List (String × Value)} {s : Store} {p : Nat × Doc}
    (h : findOne filter s = some p) : p ∈ s.docs :=
  List.mem_of_find?_eq_some h

theorem findOne_eq_none_iff (filter : List (String × Value)) (s : Store) :
    findOne filter s = none ↔ ∀ p ∈ s.docs, matchesFilter p.2 filter = false := by
  simp [findOne, List.find?_eq_none]

theorem map_fst_update_list (l : List (Nat × Doc)) (id : Nat) (fields : List (String × Value)) :
    (l.map (fun p => if p.1 = id then (p.1, applySet p.2 fields) else p)).map Prod.fst
      = l.map Prod.fst := by
  induction l with
  | nil => rfl
  | cons p rest ih =>
    by_cases h : p.1 = id <;> simp [h, ih]

theorem storeWF_updateOne (s : Store) (id : Nat) (fields : List (String × Value))
    (h : StoreWF s) : StoreWF (updateOne s id fields) := by
  constructor
  · simp only [updateOne]
    rw [map_fst_update_list]
    exact h.1
  · intro q hq
    simp only [updateOne] at hq ⊢
    obtain ⟨p, hp, rfl⟩ := List.mem_map.1 hq
    by_cases hid : p.1 = id
    · simpa [hid] using h.2 p hp
    · simpa [hid] using h.2 p hp

theorem storeWF_insertOne (d : Doc) (s : Store) (h : StoreWF s) :
    StoreWF (insertOne d s) := by
  have hfresh : s.nextId ∉ s.docs.map Prod.fst := by
    intro hmem
    obtain ⟨p, hp, hfst⟩ := List.mem_map.1 hmem
    exact absurd (hfst ▸ h.2 p hp) (lt_irrefl _)
  constructor
  · show ((s.docs ++ [(s.nextId, d)]).map Prod.fst).Nodup
    rw [List.map_append]
    simp [List.nodup_append, h.1, hfresh]
  · intro q hq
    rcases List.mem_append.1 hq with hold | hnew
    · exact Nat.lt_succ_of_lt (h.2 q hold)
    · simp only [List.mem_singleton] at hnew
      subst hnew
      exact Nat.lt_succ_self _

theorem getField_appWf2_identity (wf : Doc) (now : Nat) (k : String)
    (h1 : k ≠ "engagement_score") (h2 : k ≠ "last_updated") :
    getField (setField (setField wf "engagement_score"
        (Value.num (calculate_engagement_score_app wf))) "last_updated" (Value.time now)) k
      = getField wf k := by
  rw [getField_setField_ne _ _ _ _ (Ne.symm h2), getField_setField_ne _ _ _ _ (Ne.symm h1)]

theorem getField_schedWf2_identity (wf : Doc) (now1 : Nat) (k : String)
    (h1 : k ≠ "engagement_score") (h2 : k ≠ "last_updated") :
    getField (setField (setField wf "engagement_score"
        (Value.num (calculate_engagement_score_sched wf))) "last_updated" (Value.time now1)) k
      = getField wf k := by
  rw [getField_setField_ne _ _ _ _ (Ne.symm h2), getField_setField_ne _ _ _ _ (Ne.symm h1)]

theorem save_app_insert (wf : Doc) (nv pv cv : Value) (now : Nat) (s : Store)
    (h1 : getField wf "workflow" = some nv)
    (h2 : getField wf "platform" = some pv)
    (h3 : getField wf "country" = some cv)
    (hf : findOne [("workflow", nv), ("platform", pv), ("country", cv)] s = none) :
    save_workflow_app wf now s
      = insertOne (setField (setField (setField wf "engagement_score"
          (Value.num (calculate_engagement_score_app wf))) "last_updated" (Value.time now))
          "created_at" (Value.time now)) s := by
  simp only [save_workflow_app, save_workflow_app_body,
    getField_appWf2_identity wf now "workflow" (by decide) (by decide),
    getField_appWf2_identity wf now "platform" (by decide) (by decide),
    getField_appWf2_identity wf now "country" (by decide) (by decide),
    h1, h2, h3, hf]

theorem save_app_update (wf : Doc) (nv pv cv : Value) (now : Nat) (s : Store)
    (tid : Nat) (ex : Doc)
    (h1 : getField wf "workflow" = some nv)
    (h2 : getField wf "platform" = some pv)
    (h3 : getField wf "country" = some cv)
    (hf : findOne [("workflow", nv), ("platform", pv), ("country", cv)] s = some (tid, ex)) :
    save_workflow_app wf now s
      = updateOne s tid (setField (setField (setField wf "engagement_score"
          (Value.num (calculate_engagement_score_app wf))) "last_updated" (Value.time now))
          "created_at" (getVal ex "created_at" (Value.time now))) := by
  simp only [save_workflow_app, save_workflow_app_body,
    getField_appWf2_identity wf now "workflow" (by decide) (by decide),
    getField_appWf2_identity wf now "platform" (by decide) (by decide),
    getField_appWf2_identity wf now "country" (by decide) (by decide),
    h1, h2, h3, hf]

theorem save_app_skip (wf : Doc) (now : Nat) (s : Store)
    (h : getField wf "workflow" = none ∨ getField wf "platform" = none ∨
      getField wf "country" = none) :
    save_workflow_app wf now s = s := by
  rcases h with hW | hP | hC
  · simp only [save_workflow_app, save_workflow_app_body,
      getField_appWf2_identity wf now "workflow" (by decide) (by decide), hW]
  · cases hW : getField wf "workflow" with
    | none =>
      simp only [save_workflow_app, save_workflow_app_body,
        getField_appWf2_identity wf now "workflow" (by decide) (by decide), hW]
    | some nv =>
      simp only [save_workflow_app, save_workflow_app_body,
        getField_appWf2_identity wf now "workflow" (by decide) (by decide),
        getField_appWf2_identity wf now "platform" (by decide) (by decide), hW, hP]
  · cases hW : getField wf "workflow" with
    | none =>
      simp only [save_workflow_app, save_workflow_app_body,
        getField_appWf2_identity wf now "workflow" (by decide) (by decide), hW]
    | some nv =>
      cases hP : getField wf "platform" with
      | none =>
        simp only [save_workflow_app, save_workflow_app_body,
          getField_appWf2_identity wf now "workflow" (by decide) (by decide),
          getField_appWf2_identity wf now "platform" (by decide) (by decide), hW, hP]
      | some pv =>
        simp only [save_workflow_app, save_workflow_app_body,
          getField_appWf2_identity wf now "workflow" (by decide) (by decide),
          getField_appWf2_identity wf now "platform" (by decide) (by decide),
          getField_appWf2_identity wf now "country" (by decide) (by decide), hW, hP, hC]

theorem save_sched_insert (wf : Doc) (nv pv cv : Value) (now1 now2 : Nat) (s : Store)
    (h1 : getField wf "workflow_name" = some nv)
    (h2 : getField wf "platform" = some pv)
    (h3 : getField wf "country" = some cv)
    (hf : findOne [("workflow_name", nv), ("platform", pv), ("country", cv)] s = none) :
    save_workflow_sched wf now1 now2 s
      = insertOne (setField (setField (setField wf "engagement_score"
          (Value.num (calculate_engagement_score_sched wf))) "last_updated" (Value.time now1))
          "created_at" (Value.time now2)) s := by
  simp only [save_workflow_sched, save_workflow_sched_body,
    getField_schedWf2_identity wf now1 "workflow_name" (by decide) (by decide),
    getField_schedWf2_identity wf now1 "platform" (by decide) (by decide),
    getField_schedWf2_identity wf now1 "country" (by decide) (by decide),
    h1, h2, h3, hf]

theorem save_sched_update (wf : Doc) (nv pv cv : Value) (now1 now2 : Nat) (s : Store)
    (tid : Nat) (ex : Doc)
    (h1 : getField wf "workflow_name" = some nv)
    (h2 : getField wf "platform" = some pv)
    (h3 : getField wf "country" = some cv)
    (hf : findOne [("workflow_name", nv), ("platform", pv), ("country", cv)] s
      = some (tid, ex)) :
    save_workflow_sched wf now1 now2 s
      = updateOne s tid (schedSetFields (setField (setField wf "engagement_score"
          (Value.num (calculate_engagement_score_sched wf))) "last_updated" (Value.time now1))
          (calculate_engagement_score_sched wf) now1) := by
  simp only [save_workflow_sched, save_workflow_sched_body,
    getField_schedWf2_identity wf now1 "workflow_name" (by decide) (by decide),
    getField_schedWf2_identity wf now1 "platform" (by decide) (by decide),
    getField_schedWf2_identity wf now1 "country" (by decide) (by decide),
    h1, h2, h3, hf]

theorem save_sched_skip (wf : Doc) (now1 now2 : Nat) (s : Store)
    (h : getField wf "workflow_name" = none ∨ getField wf "platform" = none ∨
      getField wf "country" = none) :
    save_workflow_sched wf now1 now2 s = s := by
  rcases h with hW | hP | hC
  · simp only [save_workflow_sched, save_workflow_sched_body,
      getField_schedWf2_identity wf now1 "workflow_name" (by decide) (by decide), hW]
  · cases hW : getField wf "workflow_name" with
    | none =>
      simp only [save_workflow_sched, save_workflow_sched_body,
        getField_schedWf2_identity wf now1 "workflow_name" (by decide) (by decide), hW]
    | some nv =>
      simp only [save_workflow_sched, save_workflow_sched_body,
        getField_schedWf2_identity wf now1 "workflow_name" (by decide) (by decide),
        getField_schedWf2_identity wf now1 "platform" (by decide) (by decide), hW, hP]
  · cases hW : getField wf "workflow_name" with
    | none =>
      simp only [save_workflow_sched, save_workflow_sched_body,
        getField_schedWf2_identity wf now1 "workflow_name" (by decide) (by decide), hW]
    | some nv =>
      cases hP : getField wf "platform" with
      | none =>
        simp only [save_workflow_sched, save_workflow_sched_body,
          getField_schedWf2_identity wf now1 "workflow_name" (by decide) (by decide),
          getField_schedWf2_identity wf now1 "platform" (by decide) (by decide), hW, hP]
      | some pv =>
        simp only [save_workflow_sched, save_workflow_sched_body,
          getField_schedWf2_identity wf now1 "workflow_name" (by decide) (by decide),
          getField_schedWf2_identity wf now1 "platform" (by decide) (by decide),
          getField_schedWf2_identity wf now1 "country" (by decide) (by decide), hW, hP, hC]

theorem mem_updateOne_self (s : Store) (id : Nat) (fields : List (String × Value))
    (d : Doc) (hmem : (id, d) ∈ s.docs) :
    (id, applySet d fields) ∈ (updateOne s id fields).docs := by
  have heq : (fun p : Nat × Doc => if p.1 = id then (p.1, applySet p.2 fields) else p) (id, d)
      = (id, applySet d fields) := by simp
  have hmap := List.mem_map_of_mem
    (fun p : Nat × Doc => if p.1 = id then (p.1, applySet p.2 fields) else p) hmem
  rw [heq] at hmap
  exact hmap

theorem mem_updateOne_other (s : Store) (tid : Nat) (fields : List (String × Value))
    (id : Nat) (d : Doc) (hid : id ≠ tid) (hmem : (id, d) ∈ s.docs) :
    (id, d) ∈ (updateOne s tid fields).docs := by
  have heq : (fun p : Nat × Doc => if p.1 = tid then (p.1, applySet p.2 fields) else p) (id, d)
      = (id, d) := by simp [hid]
  have hmap := List.mem_map_of_mem
    (fun p : Nat × Doc => if p.1 = tid then (p.1, applySet p.2 fields) else p) hmem
  rw [heq] at hmap
  exact hmap

theorem storeWF_save_app (wf : Doc) (now : Nat) (s : Store) (h : StoreWF s) :
    StoreWF (save_workflow_app wf now s) := by
  cases hW : getField wf "workflow" with
  | none => rw [save_app_skip wf now s (Or.inl hW)]; exact h
  | some nv =>
    cases hP : getField wf "platform" with
    | none => rw [save_app_skip wf now s (Or.inr (Or.inl hP))]; exact h
    | some pv =>
      cases hC : getField wf "country" with
      | none => rw [save_app_skip wf now s (Or.inr (Or.inr hC))]; exact h
      | some cv =>
        cases hF : findOne [("workflow", nv), ("platform", pv), ("country", cv)] s with
        | none =>
          rw [save_app_insert wf nv pv cv now s hW hP hC hF]
          exact storeWF_insertOne _ _ h
        | some p =>
          obtain ⟨tid, ex⟩ := p
          rw [save_app_update wf nv pv cv now s tid ex hW hP hC hF]
          exact storeWF_updateOne _ _ _ h

theorem storeWF_save_sched (wf : Doc) (now1 now2 : Nat) (s : Store) (h : StoreWF s) :
    StoreWF (save_workflow_sched wf now1 now2 s) := by
  cases hW : getField wf "workflow_name" with
  | none => rw [save_sched_skip wf now1 now2 s (Or.inl hW)]; exact h
  | some nv =>
    cases hP : getField wf "platform" with
    | none => rw [save_sched_skip wf now1 now2 s (Or.inr (Or.inl hP))]; exact h
    | some pv =>
      cases hC : getField wf "country" with
      | none => rw [save_sched_skip wf now1 now2 s (Or.inr (Or.inr hC))]; exact h
      | some cv =>
        cases hF : findOne [("workflow_name", nv), ("platform", pv), ("country", cv)] s with
        | none =>
          rw [save_sched_insert wf nv pv cv now1 now2 s hW hP hC hF]
          exact storeWF_insertOne _ _ h
        | some p =>
          obtain ⟨tid, ex⟩ := p
          rw [save_sched_update wf nv pv cv now1 now2 s tid ex hW hP hC hF]
          exact storeWF_updateOne _ _ _ h

theorem storeWF_applyOp (s : Store) (op : SaveOp) (h : StoreWF s) :
    StoreWF (applyOp s op) := by
  cases op with
  | app wf now => exact storeWF_save_app wf now s h
  | sched wf now1 now2 => exact storeWF_save_sched wf now1 now2 s h

theorem createdAt_applyOp (s : Store) (op : SaveOp) (hS : StoreWF s) (hop : opOk op)
    (id : Nat) (d : Doc) (v : Value)
    (hmem : (id, d) ∈ s.docs) (hca : getField d "created_at" = some v) :
    ∃ d', (id, d') ∈ (applyOp s op).docs ∧ getField d' "created_at" = some v := by
  cases op with
  | app wf now =>
    show ∃ d', (id, d') ∈ (save_workflow_app wf now s).docs ∧ _
    cases hW : getField wf "workflow" with
    | none => rw [save_app_skip wf now s (Or.inl hW)]; exact ⟨d, hmem, hca⟩
    | some nv =>
      cases hP : getField wf "platform" with
      | none => rw [save_app_skip wf now s (Or.inr (Or.inl hP))]; exact ⟨d, hmem, hca⟩
      | some pv =>
        cases hC : getField wf "country" with
        | none => rw [save_app_skip wf now s (Or.inr (Or.inr hC))]; exact ⟨d, hmem, hca⟩
        | some cv =>
          cases hF : findOne [("workflow", nv), ("platform", pv), ("country", cv)] s with
          | none =>
            rw [save_app_insert wf nv pv cv now s hW hP hC hF]
            exact ⟨d, List.mem_append_left _ hmem, hca⟩
          | some p =>
            obtain ⟨tid, ex⟩ := p
            rw [save_app_update wf nv pv cv now s tid ex hW hP hC hF]
            by_cases hid : id = tid
            · subst hid
              have hex : ex = d := mem_keys_nodup_eq s.docs hS.1 (findOne_mem hF) hmem
              subst hex
              refine ⟨applySet ex (setField (setField (setField wf "engagement_score"
                  (Value.num (calculate_engagement_score_app wf))) "last_updated"
                  (Value.time now)) "created_at" (getVal ex "created_at" (Value.time now))),
                ?_, ?_⟩
              · exact mem_updateOne_self _ _ _ _ hmem
              · have hval : getVal ex "created_at" (Value.time now) = v := by
                  rw [getVal, hca]
                  rfl
                have hmemf : ("created_at", v) ∈ setField (setField (setField wf
                    "engagement_score" (Value.num (calculate_engagement_score_app wf)))
                    "last_updated" (Value.time now)) "created_at"
                    (getVal ex "created_at" (Value.time now)) := by
                  rw [← hval]
                  exact mem_setField_self _ _ _
                have hnodup : ((setField (setField (setField wf "engagement_score"
                    (Value.num (calculate_engagement_score_app wf))) "last_updated"
                    (Value.time now)) "created_at"
                    (getVal ex "created_at" (Value.time now))).map Prod.fst).Nodup :=
                  docKeysNodup_setField _ _ _ (docKeysNodup_setField _ _ _
                    (docKeysNodup_setField _ _ _ hop))
                exact getField_applySet_mem _ _ _ _ hnodup hmemf
            · refine ⟨d, ?_, hca⟩
              exact mem_updateOne_other _ _ _ _ _ hid hmem
  | sched wf now1 now2 =>
    show ∃ d', (id, d') ∈ (save_workflow_sched wf now1 now2 s).docs ∧ _
    cases hW : getField wf "workflow_name" with
    | none => rw [save_sched_skip wf now1 now2 s (Or.inl hW)]; exact ⟨d, hmem, hca⟩
    | some nv =>
      cases hP : getField wf "platform" with
      | none => rw [save_sched_skip wf now1 now2 s (Or.inr (Or.inl hP))]; exact ⟨d, hmem, hca⟩
      | some pv =>
        cases hC : getField wf "country" with
        | none => rw [save_sched_skip wf now1 now2 s (Or.inr (Or.inr hC))]; exact ⟨d, hmem, hca⟩
        | some cv =>
          cases hF : findOne [("workflow_name", nv), ("platform", pv), ("country", cv)] s with
          | none =>
            rw [save_sched_insert wf nv pv cv now1 now2 s hW hP hC hF]
            exact ⟨d, List.mem_append_left _ hmem, hca⟩
          | some p =>
            obtain ⟨tid, ex⟩ := p
            rw [save_sched_update wf nv pv cv now1 now2 s tid ex hW hP hC hF]
            have hnotin : "created_at" ∉ (schedSetFields (setField (setField wf
                "engagement_score" (Value.num (calculate_engagement_score_sched wf)))
                "last_updated" (Value.time now1))
                (calculate_engagement_score_sched wf) now1).map Prod.fst := by
              simp [schedSetFields]
            by_cases hid : id = tid
            · subst hid
              refine ⟨applySet d (schedSetFields (setField (setField wf "engagement_score"
                  (Value.num (calculate_engagement_score_sched wf))) "last_updated"
                  (Value.time now1)) (calculate_engagement_score_sched wf) now1), ?_, ?_⟩
              · exact mem_updateOne_self _ _ _ _ hmem
              · rw [getField_applySet_not_mem _ _ _ hnotin]
                exact hca
            · refine ⟨d, ?_, hca⟩
              exact mem_updateOne_other _ _ _ _ _ hid hmem

theorem app_insert_docs (wf : Doc) (nv pv cv : Value) (now : Nat) (s : Store)
    (h1 : getField wf "workflow" = some nv)
    (h2 : getField wf "platform" = some pv)
    (h3 : getField wf "country" = some cv)
    (hf : findOne [("workflow", nv), ("platform", pv), ("country", cv)] s = none) :
    ∃ d, (save_workflow_app wf now s).docs = s.docs ++ [(s.nextId, d)] ∧
      getField d "created_at" = some (Value.time now) ∧
      getField d "last_updated" = some (Value.time now) := by
  refine ⟨setField (setField (setField wf "engagement_score"
      (Value.num (calculate_engagement_score_app wf))) "last_updated" (Value.time now))
      "created_at" (Value.time now), ?_, ?_, ?_⟩
  · rw [save_app_insert wf nv pv cv now s h1 h2 h3 hf]
    rfl
  · exact getField_setField_same _ _ _
  · rw [getField_setField_ne _ _ _ _ (by decide)]
    exact getField_setField_same _ _ _

theorem sched_insert_docs (wf : Doc) (nv pv cv : Value) (t1 t2 : Nat) (s : Store)
    (h1 : getField wf "workflow_name" = some nv)
    (h2 : getField wf "platform" = some pv)
    (h3 : getField wf "country" = some cv)
    (hf : findOne [("workflow_name", nv), ("platform", pv), ("country", cv)] s = none) :
    ∃ d, (save_workflow_sched wf t1 t2 s).docs = s.docs ++ [(s.nextId, d)] ∧
      getField d "workflow_name" = some nv ∧
      getField d "platform" = some pv ∧
      getField d "country" = some cv ∧
      getField d "created_at" = some (Value.time t2) ∧
      getField d "last_updated" = some (Value.time t1) := by
  refine ⟨setField (setField (setField wf "engagement_score"
      (Value.num (calculate_engagement_score_sched wf))) "last_updated" (Value.time t1))
      "created_at" (Value.time t2), ?_, ?_, ?_, ?_, ?_, ?_⟩
  · rw [save_sched_insert wf nv pv cv t1 t2 s h1 h2 h3 hf]
    rfl
  · rw [getField_setField_ne _ _ _ _ (by decide),
      getField_schedWf2_identity wf t1 "workflow_name" (by decide) (by decide), h1]
  · rw [getField_setField_ne _ _ _ _ (by decide),
      getField_schedWf2_identity wf t1 "platform" (by decide) (by decide), h2]
  · rw [getField_setField_ne _ _ _ _ (by decide),
      getField_schedWf2_identity wf t1 "country" (by decide) (by decide), h3]
  · exact getField_setField_same _ _ _
  · rw [getField_setField_ne _ _ _ _ (by decide)]
    exact getField_setField_same _ _ _

theorem createdAt_applyOps (ops : List SaveOp) :
    ∀ (s : Store), StoreWF s → (∀ op ∈ ops, opOk op) →
    ∀ (id : Nat) (d : Doc) (v : Value), (id, d) ∈ s.docs →
    getField d "created_at" = some v →
    ∃ d', (id, d') ∈ (applyOps ops s).docs ∧ getField d' "created_at" = some v := by
  induction ops with
  | nil =>
    intro s _ _ id d v hmem hca
    exact ⟨d, hmem, hca⟩
  | cons op rest ih =>
    intro s hS hops id d v hmem hca
    obtain ⟨d1, hmem1, hca1⟩ :=
      createdAt_applyOp s op hS (hops op (List.mem_cons_self _ _)) id d v hmem hca
    exact ih (applyOp s op) (storeWF_applyOp s op hS)
      (fun o ho => hops o (List.mem_cons_of_mem _ ho)) id d1 v hmem1 hca1

-- MORELEMMAS --

/-! ### C3 and C4: the engagement scorer -/

/-- Claim C3 — for a `YouTube` record, the score is
`views * 0.0001 + likes * 0.4 + comments * 0.2` when `views > 0`, and
`0` when `views = 0`, whatever the likes and comments are; this holds
for both copies of the scorer. -/
theorem C3_video_score (w : Doc)
    (hp : getField w "platform" = some (Value.str "YouTube"))
    (_hv : numOrAbsent w "views" = true)
    (_hl : numOrAbsent w "likes" = true)
    (_hc : numOrAbsent w "comments" = true) :
    (getQ w "views" 0 > 0 →
      calculate_engagement_score_app w
        = getQ w "views" 0 * 0.0001 + getQ w "likes" 0 * 0.4 + getQ w "comments" 0 * 0.2 ∧
      calculate_engagement_score_sched w
        = getQ w "views" 0 * 0.0001 + getQ w "likes" 0 * 0.4 + getQ w "comments" 0 * 0.2) ∧
    (getQ w "views" 0 = 0 →
      calculate_engagement_score_app w = 0 ∧ calculate_engagement_score_sched w = 0) := by
  have hplat : getStr w "platform" "" = "YouTube" := getStr_of_getField _ hp
  constructor
  · intro hpos
    constructor
    · simp [calculate_engagement_score_app, hplat, hpos]
    · simp [calculate_engagement_score_sched, hplat, hpos]
  · intro hzero
    constructor
    · norm_num [calculate_engagement_score_app, hplat, hzero]
    · norm_num [calculate_engagement_score_sched, hplat, hzero]

/-- Witness for C3 at the spec's own scenario record
`{views:1000, likes:50, comments:10}` (score 22.1) and at a
zero-view record with nonzero likes/comments. -/
theorem C3_video_score_witness :
    (getField [("platform", Value.str "YouTube"), ("views", Value.num 1000),
        ("likes", Value.num 50), ("comments", Value.num 10)] "platform"
        = some (Value.str "YouTube")) ∧
    ((getQ [("platform", Value.str "YouTube"), ("views", Value.num 1000),
        ("likes", Value.num 50), ("comments", Value.num 10)] "views" 0 > 0 →
      calculate_engagement_score_app [("platform", Value.str "YouTube"), ("views", Value.num 1000),
        ("likes", Value.num 50), ("comments", Value.num 10)]
        = getQ [("platform", Value.str "YouTube"), ("views", Value.num 1000),
            ("likes", Value.num 50), ("comments", Value.num 10)] "views" 0 * 0.0001
          + getQ [("platform", Value.str "YouTube"), ("views", Value.num 1000),
            ("likes", Value.num 50), ("comments", Value.num 10)] "likes" 0 * 0.4
          + getQ [("platform", Value.str "YouTube"), ("views", Value.num 1000),
            ("likes", Value.num 50), ("comments", Value.num 10)] "comments" 0 * 0.2 ∧
      calculate_engagement_score_sched [("platform", Value.str "YouTube"), ("views", Value.num 1000),
        ("likes", Value.num 50), ("comments", Value.num 10)]
        = getQ [("platform", Value.str "YouTube"), ("views", Value.num 1000),
            ("likes", Value.num 50), ("comments", Value.num 10)] "views" 0 * 0.0001
          + getQ [("platform", Value.str "YouTube"), ("views", Value.num 1000),
            ("likes", Value.num 50), ("comments", Value.num 10)] "likes" 0 * 0.4
          + getQ [("platform", Value.str "YouTube"), ("views", Value.num 1000),
            ("likes", Value.num 50), ("comments", Value.num 10)] "comments" 0 * 0.2) ∧
    (getQ [("platform", Value.str "YouTube"), ("views", Value.num 1000),
        ("likes", Value.num 50), ("comments", Value.num 10)] "views" 0 = 0 →
      calculate_engagement_score_app [("platform", Value.str "YouTube"), ("views", Value.num 1000),
        ("likes", Value.num 50), ("comments", Value.num 10)] = 0 ∧
      calculate_engagement_score_sched [("platform", Value.str "YouTube"), ("views", Value.num 1000),
        ("likes", Value.num 50), ("comments", Value.num 10)] = 0)) :=
  ⟨by decide, C3_video_score _ (by decide) (by decide) (by decide) (by decide)⟩

/-- Claim C4 — for a `'Google Trends'` record, the `app.py` score is
`search_volume * 0.7 + max(0, trend_change) * 300`; a negative
`trend_change` contributes exactly 0; and the concrete record
`{search_volume:1000, trend_change:-5}` scores exactly 700. -/
theorem C4_trends_score (w : Doc)
    (hp : getField w "platform" = some (Value.str "Google Trends"))
    (_hs : numOrAbsent w "search_volume" = true)
    (_ht : numOrAbsent w "trend_change" = true) :
    calculate_engagement_score_app w
      = getQ w "search_volume" 0 * 0.7 + max 0 (getQ w "trend_change" 0) * 300 ∧
    (getQ w "trend_change" 0 < 0 →
      calculate_engagement_score_app w = getQ w "search_volume" 0 * 0.7) ∧
    calculate_engagement_score_app
      [("platform", Value.str "Google Trends"), ("search_volume", Value.num 1000),
       ("trend_change", Value.num (-5))] = 700 := by
  have hplat : getStr w "platform" "" = "Google Trends" := getStr_of_getField _ hp
  have hgen : ∀ w' : Doc, getStr w' "platform" "" = "Google Trends" →
      calculate_engagement_score_app w'
        = getQ w' "search_volume" 0 * 0.7 + max 0 (getQ w' "trend_change" 0) * 300 := by
    intro w' h
    simp [calculate_engagement_score_app, h]
  refine ⟨hgen w hplat, ?_, ?_⟩
  · intro hneg
    rw [hgen w hplat, max_eq_left (le_of_lt hneg)]
    ring
  · rw [hgen _ (by decide)]
    have h1 : getQ [("platform", Value.str "Google Trends"), ("search_volume", Value.num 1000),
        ("trend_change", Value.num (-5))] "search_volume" 0 = 1000 := by decide
    have h2 : getQ [("platform", Value.str "Google Trends"), ("search_volume", Value.num 1000),
        ("trend_change", Value.num (-5))] "trend_change" 0 = -5 := by decide
    rw [h1, h2]
    norm_num

/-- Witness for C4 at the spec's scenario record
`{search_volume:1000, trend_change:-5}`. -/
theorem C4_trends_score_witness :
    (getField [("platform", Value.str "Google Trends"), ("search_volume", Value.num 1000),
        ("trend_change", Value.num (-5))] "platform" = some (Value.str "Google Trends")) ∧
    (calculate_engagement_score_app [("platform", Value.str "Google Trends"),
        ("search_volume", Value.num 1000), ("trend_change", Value.num (-5))]
      = getQ [("platform", Value.str "Google Trends"), ("search_volume", Value.num 1000),
          ("trend_change", Value.num (-5))] "search_volume" 0 * 0.7
        + max 0 (getQ [("platform", Value.str "Google Trends"), ("search_volume", Value.num 1000),
          ("trend_change", Value.num (-5))] "trend_change" 0) * 300 ∧
    (getQ [("platform", Value.str "Google Trends"), ("search_volume", Value.num 1000),
        ("trend_change", Value.num (-5))] "trend_change" 0 < 0 →
      calculate_engagement_score_app [("platform", Value.str "Google Trends"),
          ("search_volume", Value.num 1000), ("trend_change", Value.num (-5))]
        = getQ [("platform", Value.str "Google Trends"), ("search_volume", Value.num 1000),
            ("trend_change", Value.num (-5))] "search_volume" 0 * 0.7) ∧
    calculate_engagement_score_app
      [("platform", Value.str "Google Trends"), ("search_volume", Value.num 1000),
       ("trend_change", Value.num (-5))] = 700) :=
  ⟨by decide, C4_trends_score _ (by decide) (by decide) (by decide)⟩

/-! ### C5: the two scorer copies are not equal as functions -/

/-- Claim C5 — refuted in the direction the code actually has it: on the
record the Google Trends collector produces (platform `'Google Trends'`),
the `app.py` scorer yields `1000 * 0.7 + 2 * 300 = 1300` while the
`scheduler.py` scorer falls through every branch (it matches the string
`'Google'`, which no produced record carries) and yields `0`.  The two
implementations of `calculate_engagement_score` are therefore not equal
as functions, and every trends record saved through the scheduler gets
engagement score `0`. -/
theorem C5_scorers_diverge_on_trends_record :
    create_workflow_from_trend trendsSampleData = some googleRecordSample ∧
    getField googleRecordSample "platform" = some (Value.str "Google Trends") ∧
    calculate_engagement_score_app googleRecordSample = 1300 ∧
    calculate_engagement_score_sched googleRecordSample = 0 ∧
    calculate_engagement_score_app googleRecordSample
      ≠ calculate_engagement_score_sched googleRecordSample := by
  have hplat : getStr googleRecordSample "platform" "" = "Google Trends" := by decide
  have happ : calculate_engagement_score_app googleRecordSample = 1300 := by
    have h : calculate_engagement_score_app googleRecordSample
        = getQ googleRecordSample "search_volume" 0 * 0.7
          + max 0 (getQ googleRecordSample "trend_change" 0) * 300 := by
      simp [calculate_engagement_score_app, hplat]
    rw [h]
    have h1 : getQ googleRecordSample "search_volume" 0 = 1000 := by decide
    have h2 : getQ googleRecordSample "trend_change" 0 = 2 := by decide
    rw [h1, h2]
    norm_num
  have hsched : calculate_engagement_score_sched googleRecordSample = 0 := by
    have h : calculate_engagement_score_sched googleRecordSample = 0.0 := by
      simp [calculate_engagement_score_sched, hplat]
    rw [h]
    norm_num
  refine ⟨by decide, by decide, happ, hsched, ?_⟩
  rw [happ, hsched]
  norm_num

/-! ### C1: the upsert in `app.py` drops every collector record -/

/-- Claim C1 — the code in `app.py` violates it: `save_workflow` looks
up `workflow['workflow']`, but every record the collectors hand it
carries the name under `workflow_name` (the key its own read layer and
`scheduler.py` use), so the lookup raises `KeyError`, the enclosing
`try/except` swallows it, and nothing is ever stored: applying
`save_workflow` twice to the same raw record leaves the store empty
instead of holding exactly one record.  The parallel `save_workflow` in
`scheduler.py` does store exactly one record for the identity key after
two applications. -/
theorem C1_app_upsert_drops_records :
    save_workflow_app_body googleRecordSample 0 emptyStore = Except.error "KeyError" ∧
    save_workflow_app googleRecordSample 1
      (save_workflow_app googleRecordSample 0 emptyStore) = emptyStore ∧
    (save_workflow_sched googleRecordSample 1 1
      (save_workflow_sched googleRecordSample 0 0 emptyStore)).docs.length = 1 :=
  ⟨rfl, rfl, rfl⟩

/-! ### C7 (counterexample), C8, C10 -/

/-- Claim C7 counterexample — the scheduler's insert branch performs a
second clock read for `created_at` (`datetime.now` again) instead of
copying `last_updated`: inserting a fresh forum record with the two
reads at times 0 and 1 stores `created_at = 1` but `last_updated = 0`,
so the newly inserted record does not satisfy
`created_at = last_updated`. -/
theorem C7_counterexample_sched_created_at :
    (save_workflow_sched forumRecordSample 0 1 emptyStore).docs.length = 1 ∧
    getField (firstDocOf (save_workflow_sched forumRecordSample 0 1 emptyStore)) "created_at"
      = some (Value.time 1) ∧
    getField (firstDocOf (save_workflow_sched forumRecordSample 0 1 emptyStore)) "last_updated"
      = some (Value.time 0) ∧
    getField (firstDocOf (save_workflow_sched forumRecordSample 0 1 emptyStore)) "created_at"
      ≠ getField (firstDocOf (save_workflow_sched forumRecordSample 0 1 emptyStore)) "last_updated" :=
  ⟨rfl, rfl, rfl, by decide⟩

/-- Claim C8 — the code in `app.py` violates it: with countries
`['US', 'IN']` and an adapter returning 2 items for US and 1 for IN,
the YouTube branch of `trigger_collection` logs
`workflows_collected = 1` (the length of the *last* country's list,
since the loop variable `workflows` is rebound each iteration), not the
total 3 the claim requires; `collect_youtube_data` in `scheduler.py`
accumulates `total_count` and logs the correct total 3. -/
theorem C8_app_logs_last_country_count :
    appYoutubeRunLog collectTwoOne ["US", "IN"] = ⟨"YouTube", 1, "success"⟩ ∧
    (collectTwoOne "US").length + (collectTwoOne "IN").length = 3 ∧
    schedYoutubeRunLog collectTwoOne = ⟨"YouTube", 3, "success"⟩ ∧
    appYoutubeRunLog collectTwoOne ["US", "IN"]
      ≠ ⟨"YouTube", (collectTwoOne "US").length + (collectTwoOne "IN").length, "success"⟩ := by
  refine ⟨rfl, rfl, rfl, ?_⟩
  decide

/-- Claim C10 — `save_workflow` in `app.py` swallows every failure of
its body: the wrapped function always returns a store (the body's
result on success, the untouched input store on failure), and a record
whose save fails leaves the remainder of the batch loop to run exactly
as if that record were absent. -/
theorem C10_save_never_propagates (wf bad : Doc) (t tb : Nat) (s : Store)
    (rest : List (Doc × Nat)) (e : String)
    (hbad : save_workflow_app_body bad tb s = Except.error e) :
    ((∃ s', save_workflow_app_body wf t s = Except.ok s' ∧ save_workflow_app wf t s = s')
      ∨ save_workflow_app wf t s = s) ∧
    save_workflow_app bad tb s = s ∧
    saveAllApp ((bad, tb) :: rest) s = saveAllApp rest s := by
  have hb : save_workflow_app bad tb s = s := by
    unfold save_workflow_app
    rw [hbad]
  refine ⟨?_, hb, ?_⟩
  · cases h : save_workflow_app_body wf t s with
    | ok s' => exact Or.inl ⟨s', rfl, by unfold save_workflow_app; rw [h]⟩
    | error e' => exact Or.inr (by unfold save_workflow_app; rw [h])
  · show saveAllApp _ s = _
    simp [saveAllApp, hb]

/-- Witness for C10: a collector record (which `app.py`'s
`save_workflow` body rejects with `KeyError`) is swallowed, and a batch
consisting of just that record behaves like the empty batch. -/
theorem C10_save_never_propagates_witness :
    (save_workflow_app_body googleRecordSample 0 emptyStore = Except.error "KeyError") ∧
    (((∃ s', save_workflow_app_body forumRecordSample 1 emptyStore = Except.ok s' ∧
          save_workflow_app forumRecordSample 1 emptyStore = s')
        ∨ save_workflow_app forumRecordSample 1 emptyStore = emptyStore) ∧
      save_workflow_app googleRecordSample 0 emptyStore = emptyStore ∧
      saveAllApp [(googleRecordSample, 0)] emptyStore = saveAllApp [] emptyStore) :=
  ⟨rfl, C10_save_never_propagates forumRecordSample googleRecordSample 1 0 emptyStore [] "KeyError" rfl⟩

/-! ### C2, C6, C7 (amended) -/

/-- Claim C2 — `created_at` is invariant: for every well-formed store,
every stored record carrying a `created_at` value keeps exactly that
value (under its `_id`) across any sequence of upserts through either
implementation of `save_workflow`: the app.py update branch copies the
existing record's `created_at` back into its `$set` document, the
scheduler's `$set` list omits `created_at`, and inserts never touch
existing records. -/
theorem C2_created_at_invariant (ops : List SaveOp) (s : Store)
    (hS : StoreWF s) (hops : ∀ op ∈ ops, opOk op)
    (id : Nat) (d : Doc) (v : Value)
    (hmem : (id, d) ∈ s.docs) (hca : getField d "created_at" = some v) :
    ∃ d', (id, d') ∈ (applyOps ops s).docs ∧ getField d' "created_at" = some v :=
  createdAt_applyOps ops s hS hops id d v hmem hca

/-- Witness for C2: a one-record store upserted again through the
scheduler keeps `created_at = 3`. -/
theorem C2_created_at_invariant_witness :
    (StoreWF c2Store ∧ (∀ op ∈ [c2Op], opOk op) ∧ (0, c2StoredDoc) ∈ c2Store.docs ∧
      getField c2StoredDoc "created_at" = some (Value.time 3)) ∧
    (∃ d', (0, d') ∈ (applyOps [c2Op] c2Store).docs ∧
      getField d' "created_at" = some (Value.time 3)) := by
  have hS : StoreWF c2Store := ⟨by decide, by decide⟩
  have hops : ∀ op ∈ [c2Op], opOk op := by
    intro o ho
    simp only [List.mem_singleton] at ho
    subst ho
    exact (by decide : (c2OpDoc.map Prod.fst).Nodup)
  have hmem : (0, c2StoredDoc) ∈ c2Store.docs := by decide
  have hca : getField c2StoredDoc "created_at" = some (Value.time 3) := by decide
  exact ⟨⟨hS, hops, hmem, hca⟩,
    C2_created_at_invariant [c2Op] c2Store hS hops 0 c2StoredDoc (Value.time 3) hmem hca⟩

/-- Claim C6 — the scheduler's upsert looks the existing record up by
exact equality on the (workflow_name, platform, country) triple: a
record differing from the stored one only in `country` (any string
inequality, case included) is inserted as a second distinct record,
while a record with the identical triple takes the update branch and
leaves one record. -/
theorem C6_identity_key_exact_match (base : Doc) (nv pv : Value) (c1 c2 : String)
    (hname : getField base "workflow_name" = some nv)
    (hplat : getField base "platform" = some pv)
    (hne : c1 ≠ c2) (t1 t2 t3 t4 t5 t6 : Nat) :
    (save_workflow_sched (setField base "country" (Value.str c1)) t1 t2 emptyStore).docs.length
      = 1 ∧
    (save_workflow_sched (setField base "country" (Value.str c2)) t3 t4
      (save_workflow_sched (setField base "country" (Value.str c1)) t1 t2
        emptyStore)).docs.length = 2 ∧
    (save_workflow_sched (setField base "country" (Value.str c1)) t5 t6
      (save_workflow_sched (setField base "country" (Value.str c1)) t1 t2
        emptyStore)).docs.length = 1 := by
  have hr1n : getField (setField base "country" (Value.str c1)) "workflow_name" = some nv := by
    rw [getField_setField_ne _ _ _ _ (by decide), hname]
  have hr1p : getField (setField base "country" (Value.str c1)) "platform" = some pv := by
    rw [getField_setField_ne _ _ _ _ (by decide), hplat]
  have hr1c : getField (setField base "country" (Value.str c1)) "country"
      = some (Value.str c1) := getField_setField_same _ _ _
  have hr2n : getField (setField base "country" (Value.str c2)) "workflow_name" = some nv := by
    rw [getField_setField_ne _ _ _ _ (by decide), hname]
  have hr2p : getField (setField base "country" (Value.str c2)) "platform" = some pv := by
    rw [getField_setField_ne _ _ _ _ (by decide), hplat]
  have hr2c : getField (setField base "country" (Value.str c2)) "country"
      = some (Value.str c2) := getField_setField_same _ _ _
  obtain ⟨D1, hdocs1, hD1n, hD1p, hD1c, _, _⟩ :=
    sched_insert_docs (setField base "country" (Value.str c1)) nv pv (Value.str c1) t1 t2
      emptyStore hr1n hr1p hr1c rfl
  have hone : (save_workflow_sched (setField base "country" (Value.str c1)) t1 t2
      emptyStore).docs = [(0, D1)] := by
    rw [hdocs1]
    rfl
  have hf2 : findOne [("workflow_name", nv), ("platform", pv), ("country", Value.str c2)]
      (save_workflow_sched (setField base "country" (Value.str c1)) t1 t2 emptyStore)
      = none := by
    rw [findOne_eq_none_iff]
    intro p hp
    rw [hone, List.mem_singleton] at hp
    subst hp
    have hbeq : (some (Value.str c1) == some (Value.str c2)) = false := by
      rw [beq_eq_false_iff_ne]
      simp [hne]
    simp [matchesFilter, hD1n, hD1p, hD1c, hbeq]
  have hmatch : matchesFilter D1
      [("workflow_name", nv), ("platform", pv), ("country", Value.str c1)] = true := by
    simp [matchesFilter, hD1n, hD1p, hD1c]
  have hf3 : findOne [("workflow_name", nv), ("platform", pv), ("country", Value.str c1)]
      (save_workflow_sched (setField base "country" (Value.str c1)) t1 t2 emptyStore)
      = some (0, D1) := by
    show List.find? _ _ = _
    rw [hone]
    exact List.find?_cons_of_pos _ hmatch
  refine ⟨by rw [hone]; rfl, ?_, ?_⟩
  · obtain ⟨D2, hdocs2, _, _, _, _, _⟩ :=
      sched_insert_docs (setField base "country" (Value.str c2)) nv pv (Value.str c2) t3 t4
        (save_workflow_sched (setField base "country" (Value.str c1)) t1 t2 emptyStore)
        hr2n hr2p hr2c hf2
    rw [hdocs2, List.length_append, hone]
    rfl
  · rw [save_sched_update (setField base "country" (Value.str c1)) nv pv (Value.str c1)
      t5 t6 _ 0 D1 hr1n hr1p hr1c hf3]
    show ((save_workflow_sched _ t1 t2 emptyStore).docs.map _).length = 1
    rw [List.length_map, hone]
    rfl

/-- Witness for C6 at a base record named `X` on platform `Forum`, with
countries `US` and `us` differing only in case. -/
theorem C6_identity_key_exact_match_witness :
    (getField [("workflow_name", Value.str "X"), ("platform", Value.str "Forum")]
        "workflow_name" = some (Value.str "X") ∧
      getField [("workflow_name", Value.str "X"), ("platform", Value.str "Forum")]
        "platform" = some (Value.str "Forum") ∧
      "US" ≠ "us") ∧
    ((save_workflow_sched (setField [("workflow_name", Value.str "X"),
        ("platform", Value.str "Forum")] "country" (Value.str "US")) 0 0
        emptyStore).docs.length = 1 ∧
      (save_workflow_sched (setField [("workflow_name", Value.str "X"),
        ("platform", Value.str "Forum")] "country" (Value.str "us")) 1 1
        (save_workflow_sched (setField [("workflow_name", Value.str "X"),
          ("platform", Value.str "Forum")] "country" (Value.str "US")) 0 0
          emptyStore)).docs.length = 2 ∧
      (save_workflow_sched (setField [("workflow_name", Value.str "X"),
        ("platform", Value.str "Forum")] "country" (Value.str "US")) 2 2
        (save_workflow_sched (setField [("workflow_name", Value.str "X"),
          ("platform", Value.str "Forum")] "country" (Value.str "US")) 0 0
          emptyStore)).docs.length = 1) :=
  ⟨⟨by decide, by decide, by decide⟩,
    C6_identity_key_exact_match [("workflow_name", Value.str "X"),
      ("platform", Value.str "Forum")] (Value.str "X") (Value.str "Forum") "US" "us"
      (by decide) (by decide) (by decide) 0 0 1 1 2 2⟩

/-- Claim C7 amended — when no existing record is found, `app.py`'s
insert branch stores a record whose `created_at` equals its
`last_updated` (both are the single clock read); `scheduler.py`'s
insert branch stores `created_at` from a second clock read, which
equals `last_updated` only when the two reads coincide. -/
theorem C7_amended_insert_timestamps (wfA wfS : Doc) (nvA pvA cvA nvS pvS cvS : Value)
    (t u1 u2 : Nat) (sA sS : Store)
    (hA1 : getField wfA "workflow" = some nvA)
    (hA2 : getField wfA "platform" = some pvA)
    (hA3 : getField wfA "country" = some cvA)
    (hAf : findOne [("workflow", nvA), ("platform", pvA), ("country", cvA)] sA = none)
    (hS1 : getField wfS "workflow_name" = some nvS)
    (hS2 : getField wfS "platform" = some pvS)
    (hS3 : getField wfS "country" = some cvS)
    (hSf : findOne [("workflow_name", nvS), ("platform", pvS), ("country", cvS)] sS
      = none) :
    (∃ d, (save_workflow_app wfA t sA).docs = sA.docs ++ [(sA.nextId, d)] ∧
      getField d "created_at" = some (Value.time t) ∧
      getField d "last_updated" = some (Value.time t)) ∧
    (∃ d, (save_workflow_sched wfS u1 u2 sS).docs = sS.docs ++ [(sS.nextId, d)] ∧
      getField d "created_at" = some (Value.time u2) ∧
      getField d "last_updated" = some (Value.time u1)) := by
  constructor
  · exact app_insert_docs wfA nvA pvA cvA t sA hA1 hA2 hA3 hAf
  · obtain ⟨d, hdocs, _, _, _, hc, hl⟩ :=
      sched_insert_docs wfS nvS pvS cvS u1 u2 sS hS1 hS2 hS3 hSf
    exact ⟨d, hdocs, hc, hl⟩

/-- Witness for C7 (amended): inserting fresh records into the empty
store, at clock reads 4 (app) and 5/6 (scheduler). -/
theorem C7_amended_insert_timestamps_witness :
    (getField [("workflow", Value.str "X"), ("platform", Value.str "Forum"),
        ("country", Value.str "Global")] "workflow" = some (Value.str "X") ∧
      getField forumRecordSample "workflow_name"
        = some (Value.str "WhatsApp Business API Integration Workflow") ∧
      findOne [("workflow", Value.str "X"), ("platform", Value.str "Forum"),
        ("country", Value.str "Global")] emptyStore = none) ∧
    ((∃ d, (save_workflow_app [("workflow", Value.str "X"), ("platform", Value.str "Forum"),
        ("country", Value.str "Global")] 4 emptyStore).docs
        = emptyStore.docs ++ [(emptyStore.nextId, d)] ∧
      getField d "created_at" = some (Value.time 4) ∧
      getField d "last_updated" = some (Value.time 4)) ∧
    (∃ d, (save_workflow_sched forumRecordSample 5 6 emptyStore).docs
        = emptyStore.docs ++ [(emptyStore.nextId, d)] ∧
      getField d "created_at" = some (Value.time 6) ∧
      getField d "last_updated" = some (Value.time 5))) :=
  ⟨⟨by decide, by decide, rfl⟩,
    C7_amended_insert_timestamps
      [("workflow", Value.str "X"), ("platform", Value.str "Forum"),
        ("country", Value.str "Global")] forumRecordSample
      (Value.str "X") (Value.str "Forum") (Value.str "Global")
      (Value.str "WhatsApp Business API Integration Workflow") (Value.str "Forum")
      (Value.str "Global") 4 5 6 emptyStore emptyStore
      (by decide) (by decide) (by decide) rfl
      (by decide) (by decide) (by decide) rfl⟩

/-! ### C9: adapter deduplication -/

theorem assocFind_assocSet_same (m : List (String × Doc)) (url : String) (wf : Doc) :
    assocFind (assocSet m url wf) url = some wf := by
  induction m with
  | nil => simp [assocSet, assocFind]
  | cons p rest ih =>
    by_cases h : p.1 = url
    · simp [assocSet, assocFind, h]
    · simp [assocSet, assocFind, h, ih]

theorem assocFind_assocSet_ne (m : List (String × Doc)) (url url0 : String) (wf : Doc)
    (h : url ≠ url0) :
    assocFind (assocSet m url wf) url0 = assocFind m url0 := by
  induction m with
  | nil => simp [assocSet, assocFind, h]
  | cons p rest ih =>
    by_cases hp : p.1 = url
    · simp [assocSet, assocFind, hp, h, Ne.symm h]
    · by_cases hp' : p.1 = url0
      · simp [assocSet, assocFind, hp, hp', Ne.symm h]
      · simp [assocSet, assocFind, hp, hp', ih]

theorem ytStep_eq_of_not_str (m : List (String × Doc)) (wf : Doc)
    (h : ∀ u, getField wf "source_url" ≠ some (Value.str u)) :
    dedupStepYoutube m wf = m := by
  cases hsrc : getField wf "source_url" with
  | none => simp [dedupStepYoutube, hsrc]
  | some v =>
    cases v with
    | str u => exact absurd hsrc (h u)
    | num q => simp [dedupStepYoutube, hsrc]
    | time t => simp [dedupStepYoutube, hsrc]
    | strList l => simp [dedupStepYoutube, hsrc]

theorem forumStep_eq_of_not_str (m : List (String × Doc)) (w : Doc)
    (h : ∀ u, getField w "source_url" ≠ some (Value.str u)) :
    dedupStepForum m w = m := by
  cases hsrc : getField w "source_url" with
  | none => simp [dedupStepForum, hsrc]
  | some v =>
    cases v with
    | str u => exact absurd hsrc (h u)
    | num q => simp [dedupStepForum, hsrc]
    | time t => simp [dedupStepForum, hsrc]
    | strList l => simp [dedupStepForum, hsrc]

theorem ytDedup_step (seen : List Doc) (m : List (String × Doc)) (wf : Doc)
    (h1 : ∀ url w, assocFind m url = some w →
       w ∈ seen ∧ getField w "source_url" = some (Value.str url) ∧
       ∀ wf' ∈ seen, getField wf' "source_url" = some (Value.str url) →
         wfViews wf' ≤ wfViews w)
    (h2 : ∀ wf' ∈ seen, ∀ url, getField wf' "source_url" = some (Value.str url) →
       assocFind m url ≠ none) :
    (∀ url w, assocFind (dedupStepYoutube m wf) url = some w →
       w ∈ seen ++ [wf] ∧ getField w "source_url" = some (Value.str url) ∧
       ∀ wf' ∈ seen ++ [wf], getField wf' "source_url" = some (Value.str url) →
         wfViews wf' ≤ wfViews w) ∧
    (∀ wf' ∈ seen ++ [wf], ∀ url, getField wf' "source_url" = some (Value.str url) →
       assocFind (dedupStepYoutube m wf) url ≠ none) := by
  by_cases hstr : ∃ u, getField wf "source_url" = some (Value.str u)
  · obtain ⟨u, hsrc⟩ := hstr
    cases hfind : assocFind m u with
    | none =>
      have hm : dedupStepYoutube m wf = assocSet m u wf := by
        simp [dedupStepYoutube, hsrc, hfind]
      rw [hm]
      constructor
      · intro url w hw
        by_cases hu : u = url
        · subst hu
          rw [assocFind_assocSet_same] at hw
          injection hw with hw
          subst hw
          refine ⟨List.mem_append_right _ (List.mem_singleton_self _), hsrc, ?_⟩
          intro wf' hwf' hurl'
          rcases List.mem_append.1 hwf' with hseen | hnew
          · exact absurd hfind (h2 wf' hseen u hurl')
          · rw [List.mem_singleton] at hnew
            subst hnew
            exact le_refl _
        · rw [assocFind_assocSet_ne _ _ _ _ hu] at hw
          obtain ⟨hmem, hurl, hmax⟩ := h1 url w hw
          refine ⟨List.mem_append_left _ hmem, hurl, ?_⟩
          intro wf' hwf' hurl'
          rcases List.mem_append.1 hwf' with hseen | hnew
          · exact hmax wf' hseen hurl'
          · rw [List.mem_singleton] at hnew
            subst hnew
            rw [hsrc] at hurl'
            injection hurl' with hv
            injection hv with hv
            exact absurd hv hu
      · intro wf' hwf' url hurl
        rcases List.mem_append.1 hwf' with hseen | hnew
        · by_cases hu : u = url
          · subst hu
            rw [assocFind_assocSet_same]
            exact Option.noConfusion
          · rw [assocFind_assocSet_ne _ _ _ _ hu]
            exact h2 wf' hseen url hurl
        · rw [List.mem_singleton] at hnew
          subst hnew
          rw [hsrc] at hurl
          injection hurl with hv
          injection hv with hv
          subst hv
          rw [assocFind_assocSet_same]
          exact Option.noConfusion
    | some prev =>
      by_cases hgt : wfViews wf > wfViews prev
      · have hm : dedupStepYoutube m wf = assocSet m u wf := by
          simp [dedupStepYoutube, hsrc, hfind, hgt]
        rw [hm]
        constructor
        · intro url w hw
          by_cases hu : u = url
          · subst hu
            rw [assocFind_assocSet_same] at hw
            injection hw with hw
            subst hw
            refine ⟨List.mem_append_right _ (List.mem_singleton_self _), hsrc, ?_⟩
            intro wf' hwf' hurl'
            rcases List.mem_append.1 hwf' with hseen | hnew
            · obtain ⟨_, _, hmaxp⟩ := h1 u prev hfind
              exact le_trans (hmaxp wf' hseen hurl') (le_of_lt hgt)
            · rw [List.mem_singleton] at hnew
              subst hnew
              exact le_refl _
          · rw [assocFind_assocSet_ne _ _ _ _ hu] at hw
            obtain ⟨hmem, hurl, hmax⟩ := h1 url w hw
            refine ⟨List.mem_append_left _ hmem, hurl, ?_⟩
            intro wf' hwf' hurl'
            rcases List.mem_append.1 hwf' with hseen | hnew
            · exact hmax wf' hseen hurl'
            · rw [List.mem_singleton] at hnew
              subst hnew
              rw [hsrc] at hurl'
              injection hurl' with hv
              injection hv with hv
              exact absurd hv hu
        · intro wf' hwf' url hurl
          rcases List.mem_append.1 hwf' with hseen | hnew
          · by_cases hu : u = url
            · subst hu
              rw [assocFind_assocSet_same]
              exact Option.noConfusion
            · rw [assocFind_assocSet_ne _ _ _ _ hu]
              exact h2 wf' hseen url hurl
          · rw [List.mem_singleton] at hnew
            subst hnew
            rw [hsrc] at hurl
            injection hurl with hv
            injection hv with hv
            subst hv
            rw [assocFind_assocSet_same]
            exact Option.noConfusion
      · have hm : dedupStepYoutube m wf = m := by
          simp [dedupStepYoutube, hsrc, hfind, hgt]
        rw [hm]
        constructor
        · intro url w hw
          obtain ⟨hmem, hurl, hmax⟩ := h1 url w hw
          refine ⟨List.mem_append_left _ hmem, hurl, ?_⟩
          intro wf' hwf' hurl'
          rcases List.mem_append.1 hwf' with hseen | hnew
          · exact hmax wf' hseen hurl'
          · rw [List.mem_singleton] at hnew
            subst hnew
            rw [hsrc] at hurl'
            injection hurl' with hv
            injection hv with hv
            subst hv
            rw [hw] at hfind
            injection hfind with hfind
            subst hfind
            exact le_of_not_lt hgt
        · intro wf' hwf' url hurl
          rcases List.mem_append.1 hwf' with hseen | hnew
          · exact h2 wf' hseen url hurl
          · rw [List.mem_singleton] at hnew
            subst hnew
            rw [hsrc] at hurl
            injection hurl with hv
            injection hv with hv
            subst hv
            rw [hfind]
            exact Option.noConfusion
  · push_neg at hstr
    rw [ytStep_eq_of_not_str m wf hstr]
    constructor
    · intro url w hw
      obtain ⟨hmem, hurl, hmax⟩ := h1 url w hw
      refine ⟨List.mem_append_left _ hmem, hurl, ?_⟩
      intro wf' hwf' hurl'
      rcases List.mem_append.1 hwf' with hseen | hnew
      · exact hmax wf' hseen hurl'
      · rw [List.mem_singleton] at hnew
        subst hnew
        exact absurd hurl' (hstr url)
    · intro wf' hwf' url hurl
      rcases List.mem_append.1 hwf' with hseen | hnew
      · exact h2 wf' hseen url hurl
      · rw [List.mem_singleton] at hnew
        subst hnew
        exact absurd hurl (hstr url)

theorem ytDedup_inv (items : List Doc) :
    ∀ (seen : List Doc) (m : List (String × Doc)),
    (∀ url w, assocFind m url = some w →
       w ∈ seen ∧ getField w "source_url" = some (Value.str url) ∧
       ∀ wf' ∈ seen, getField wf' "source_url" = some (Value.str url) →
         wfViews wf' ≤ wfViews w) →
    (∀ wf' ∈ seen, ∀ url, getField wf' "source_url" = some (Value.str url) →
       assocFind m url ≠ none) →
    ∀ url w, assocFind (items.foldl dedupStepYoutube m) url = some w →
       w ∈ seen ++ items ∧ getField w "source_url" = some (Value.str url) ∧
       ∀ wf' ∈ seen ++ items, getField wf' "source_url" = some (Value.str url) →
         wfViews wf' ≤ wfViews w := by
  induction items with
  | nil =>
    intro seen m h1 _ url w hw
    simpa using h1 url w hw
  | cons wf rest ih =>
    intro seen m h1 h2 url w hw
    obtain ⟨hstep1, hstep2⟩ := ytDedup_step seen m wf h1 h2
    have := ih (seen ++ [wf]) (dedupStepYoutube m wf) hstep1 hstep2 url w hw
    simpa [List.append_assoc] using this

theorem forumStep_preserves (m : List (String × Doc)) (w : Doc) (url : String) (wf : Doc)
    (h : assocFind m url = some wf) :
    assocFind (dedupStepForum m w) url = some wf := by
  by_cases hstr : ∃ u, getField w "source_url" = some (Value.str u)
  · obtain ⟨u, hsrc⟩ := hstr
    by_cases hu0 : u = ""
    · simpa [dedupStepForum, hsrc, hu0] using h
    · cases hfind : assocFind m u with
      | none =>
        have hne : u ≠ url := by
          rintro rfl
          rw [h] at hfind
          cases hfind
        rw [show dedupStepForum m w = assocSet m u w from by
          simp [dedupStepForum, hsrc, hu0, hfind]]
        rw [assocFind_assocSet_ne _ _ _ _ hne]
        exact h
      | some _ =>
        simpa [dedupStepForum, hsrc, hu0, hfind] using h
  · push_neg at hstr
    rw [forumStep_eq_of_not_str m w hstr]
    exact h

theorem forumFold_preserves (items : List Doc) :
    ∀ (m : List (String × Doc)) (url : String) (wf : Doc),
    assocFind m url = some wf →
    assocFind (items.foldl dedupStepForum m) url = some wf := by
  induction items with
  | nil => intro m url wf h; exact h
  | cons w rest ih =>
    intro m url wf h
    exact ih _ _ _ (forumStep_preserves m w url wf h)

theorem forumDedup_sound (items : List Doc) :
    ∀ (seen : List Doc) (m : List (String × Doc)),
    (∀ url wf, assocFind m url = some wf →
       wf ∈ seen ∧ getField wf "source_url" = some (Value.str url) ∧ url ≠ "") →
    ∀ url wf, assocFind (items.foldl dedupStepForum m) url = some wf →
       wf ∈ seen ++ items ∧ getField wf "source_url" = some (Value.str url) ∧ url ≠ "" := by
  induction items with
  | nil =>
    intro seen m h url wf hw
    simpa using h url wf hw
  | cons w rest ih =>
    intro seen m h url wf hw
    have hstep : ∀ url0 wf0, assocFind (dedupStepForum m w) url0 = some wf0 →
        wf0 ∈ seen ++ [w] ∧ getField wf0 "source_url" = some (Value.str url0) ∧
        url0 ≠ "" := by
      intro url0 wf0 h0
      by_cases hstr : ∃ u, getField w "source_url" = some (Value.str u)
      · obtain ⟨u, hsrc⟩ := hstr
        by_cases hu0 : u = ""
        · rw [show dedupStepForum m w = m from by simp [dedupStepForum, hsrc, hu0]] at h0
          obtain ⟨a, b, c⟩ := h url0 wf0 h0
          exact ⟨List.mem_append_left _ a, b, c⟩
        · cases hfind : assocFind m u with
          | some _ =>
            rw [show dedupStepForum m w = m from by
              simp [dedupStepForum, hsrc, hu0, hfind]] at h0
            obtain ⟨a, b, c⟩ := h url0 wf0 h0
            exact ⟨List.mem_append_left _ a, b, c⟩
          | none =>
            rw [show dedupStepForum m w = assocSet m u w from by
              simp [dedupStepForum, hsrc, hu0, hfind]] at h0
            by_cases hu : u = url0
            · subst hu
              rw [assocFind_assocSet_same] at h0
              injection h0 with h0
              subst h0
              exact ⟨List.mem_append_right _ (List.mem_singleton_self _), hsrc, hu0⟩
            · rw [assocFind_assocSet_ne _ _ _ _ hu] at h0
              obtain ⟨a, b, c⟩ := h url0 wf0 h0
              exact ⟨List.mem_append_left _ a, b, c⟩
      · push_neg at hstr
        rw [forumStep_eq_of_not_str m w hstr] at h0
        obtain ⟨a, b, c⟩ := h url0 wf0 h0
        exact ⟨List.mem_append_left _ a, b, c⟩
    have := ih (seen ++ [w]) (dedupStepForum m w) hstep url wf hw
    simpa [List.append_assoc] using this

theorem assocKeys_assocSet (m : List (String × Doc)) (u : String) (w : Doc) :
    (assocSet m u w).map Prod.fst
      = if u ∈ m.map Prod.fst then m.map Prod.fst else m.map Prod.fst ++ [u] := by
  induction m with
  | nil => simp [assocSet]
  | cons p rest ih =>
    by_cases h : p.1 = u
    · simp [assocSet, h]
    · simp only [assocSet, if_neg h, List.map_cons] at ih ⊢
      rw [ih]
      by_cases hk : u ∈ List.map Prod.fst rest
      · simp [hk, Ne.symm h]
      · simp [hk, Ne.symm h]

theorem assocNodup_assocSet (m : List (String × Doc)) (u : String) (w : Doc)
    (h : (m.map Prod.fst).Nodup) : ((assocSet m u w).map Prod.fst).Nodup := by
  rw [assocKeys_assocSet]
  by_cases hk : u ∈ m.map Prod.fst
  · simpa [hk] using h
  · simp [hk, List.nodup_append, h]

theorem ytFold_nodup (items : List Doc) :
    ∀ m : List (String × Doc), (m.map Prod.fst).Nodup →
    ((items.foldl dedupStepYoutube m).map Prod.fst).Nodup := by
  induction items with
  | nil => intro m h; exact h
  | cons wf rest ih =>
    intro m h
    refine ih _ ?_
    by_cases hstr : ∃ u, getField wf "source_url" = some (Value.str u)
    · obtain ⟨u, hsrc⟩ := hstr
      cases hfind : assocFind m u with
      | none =>
        rw [show dedupStepYoutube m wf = assocSet m u wf from by
          simp [dedupStepYoutube, hsrc, hfind]]
        exact assocNodup_assocSet m u wf h
      | some prev =>
        by_cases hgt : wfViews wf > wfViews prev
        · rw [show dedupStepYoutube m wf = assocSet m u wf from by
            simp [dedupStepYoutube, hsrc, hfind, hgt]]
          exact assocNodup_assocSet m u wf h
        · rw [show dedupStepYoutube m wf = m from by
            simp [dedupStepYoutube, hsrc, hfind, hgt]]
          exact h
    · push_neg at hstr
      rw [ytStep_eq_of_not_str m wf hstr]
      exact h

/-- Claim C9 amended — the two adapters deduplicate by source URL but
with different collision rules: the YouTube adapter's table maps each
URL to an item of the input bearing that URL whose view count is
maximal among all same-URL items (one table entry per URL), while the
Forum adapter keeps the first-seen item for each URL — an existing
binding survives any further input items regardless of view counts —
and drops items with an empty URL. -/
theorem C9_amended_dedup (itemsY itemsF : List Doc)
    (_hok : ∀ wf ∈ itemsY, ytItemOk wf = true) :
    (∀ url wf, assocFind (dedupYoutube itemsY) url = some wf →
      wf ∈ itemsY ∧ getField wf "source_url" = some (Value.str url) ∧
      ∀ wf' ∈ itemsY, getField wf' "source_url" = some (Value.str url) →
        wfViews wf' ≤ wfViews wf) ∧
    ((dedupYoutube itemsY).map Prod.fst).Nodup ∧
    (∀ url wf, assocFind (dedupForum itemsF) url = some wf →
      wf ∈ itemsF ∧ getField wf "source_url" = some (Value.str url) ∧ url ≠ "") ∧
    (∀ rest url wf, assocFind (dedupForum itemsF) url = some wf →
      assocFind (dedupForum (itemsF ++ rest)) url = some wf) := by
  refine ⟨?_, ?_, ?_, ?_⟩
  · intro url wf h
    have h1 : ∀ url w, assocFind ([] : List (String × Doc)) url = some w →
        w ∈ ([] : List Doc) ∧ getField w "source_url" = some (Value.str url) ∧
        ∀ wf' ∈ ([] : List Doc), getField wf' "source_url" = some (Value.str url) →
          wfViews wf' ≤ wfViews w := by
      intro url0 w0 h0
      simp [assocFind] at h0
    have h2 : ∀ wf' ∈ ([] : List Doc), ∀ url,
        getField wf' "source_url" = some (Value.str url) →
        assocFind ([] : List (String × Doc)) url ≠ none := by
      intro wf' hwf'
      cases hwf'
    have := ytDedup_inv itemsY [] [] h1 h2 url wf h
    simpa using this
  · exact ytFold_nodup itemsY [] (by simp)
  · intro url wf h
    have := forumDedup_sound itemsF [] []
      (by intro url0 wf0 h0; simp [assocFind] at h0) url wf h
    simpa using this
  · intro rest url wf h
    show assocFind ((itemsF ++ rest).foldl dedupStepForum []) url = some wf
    rw [List.foldl_append]
    exact forumFold_preserves rest _ url wf h

/-- Witness for C9 (amended): two YouTube items sharing a URL with
views 1 and 2, and the two forum duplicates. -/
theorem C9_amended_dedup_witness :
    (∀ wf ∈ [[("source_url", Value.str "https://www.youtube.com/watch?v=a"),
        ("views", Value.num 1)],
      [("source_url", Value.str "https://www.youtube.com/watch?v=a"),
        ("views", Value.num 2)]], ytItemOk wf = true) ∧
    ((∀ url wf, assocFind (dedupYoutube
        [[("source_url", Value.str "https://www.youtube.com/watch?v=a"),
          ("views", Value.num 1)],
         [("source_url", Value.str "https://www.youtube.com/watch?v=a"),
          ("views", Value.num 2)]]) url = some wf →
      wf ∈ [[("source_url", Value.str "https://www.youtube.com/watch?v=a"),
          ("views", Value.num 1)],
        [("source_url", Value.str "https://www.youtube.com/watch?v=a"),
          ("views", Value.num 2)]] ∧
      getField wf "source_url" = some (Value.str url) ∧
      ∀ wf' ∈ [[("source_url", Value.str "https://www.youtube.com/watch?v=a"),
          ("views", Value.num 1)],
        [("source_url", Value.str "https://www.youtube.com/watch?v=a"),
          ("views", Value.num 2)]], getField wf' "source_url" = some (Value.str url) →
        wfViews wf' ≤ wfViews wf) ∧
    ((dedupYoutube [[("source_url", Value.str "https://www.youtube.com/watch?v=a"),
          ("views", Value.num 1)],
        [("source_url", Value.str "https://www.youtube.com/watch?v=a"),
          ("views", Value.num 2)]]).map Prod.fst).Nodup ∧
    (∀ url wf, assocFind (dedupForum [forumDupLow, forumDupHigh]) url = some wf →
      wf ∈ [forumDupLow, forumDupHigh] ∧
      getField wf "source_url" = some (Value.str url) ∧ url ≠ "") ∧
    (∀ rest url wf, assocFind (dedupForum [forumDupLow, forumDupHigh]) url = some wf →
      assocFind (dedupForum ([forumDupLow, forumDupHigh] ++ rest)) url = some wf)) :=
  ⟨by decide,
    C9_amended_dedup
      [[("source_url", Value.str "https://www.youtube.com/watch?v=a"),
        ("views", Value.num 1)],
       [("source_url", Value.str "https://www.youtube.com/watch?v=a"),
        ("views", Value.num 2)]]
      [forumDupLow, forumDupHigh] (by decide)⟩

/-- Claim C9 counterexample — the forum adapter's dedup does not keep
the higher-view-count variant: given two items with the same source URL
and views 1 then 2, it retains the first (views 1). -/
theorem C9_counterexample_forum_first_wins :
    dedupForum [forumDupLow, forumDupHigh]
      = [("https://community.n8n.io/t/slack-notion-task-sync/15201", forumDupLow)] ∧
    wfViews forumDupHigh > wfViews forumDupLow ∧
    forumDupHigh ≠ forumDupLow :=
  ⟨rfl, by decide, by decide⟩
